import Mathlib

/-!
Verification of the langchain-extract server core against its specification.

The development embeds the code of `backend/server/main.py` and
`backend/server/query_analysis.py` shallowly in Lean:

- JSON values are the inductive type `Json`; the Python standard library
  function `json.dumps` is embedded as `Json.dumps` (default key order,
  separators `", "` and `": "`), and `json.dumps(x, sort_keys=True)` as
  `Json.dumpsSortKeys` (recursively sorted object keys).
- `_deduplicate` from `query_analysis.py` becomes `_deduplicate`, a fold
  that threads the `seen` set (modelled as a list of serialized strings)
  and the `unique` accumulator exactly as the Python loop does.
- `_make_prompt_template` becomes `make_prompt_template`, polymorphic in
  the type of the example messages, which are carried verbatim.
- The two HTTP handlers `extract` and `query_analyzer` are embedded as
  pure functions parameterized by the external collaborators (the schema
  validator and the LLM client); `extract` additionally returns the list
  of side effects it performed, in order, so that statements about what
  happens before a failure can be made.
-/

/-- JSON values. Numbers are modelled as integers, which suffices for all
payloads appearing in the embedded code paths. Object fields are an ordered
association list, mirroring the insertion order of Python dictionaries. -/
inductive Json where
  | null
  | bool (b : Bool)
  | num (n : Int)
  | str (s : String)
  | arr (items : List Json)
  | obj (fields : List (String × Json))

/-- Lexicographic comparison of character lists by code point, mirroring how
Python compares strings when sorting dictionary keys. -/
def charListLe : List Char → List Char → Bool
  | [], _ => true
  | _ :: _, [] => false
  | a :: as, b :: bs =>
    if a.toNat < b.toNat then true
    else if b.toNat < a.toNat then false
    else charListLe as bs

/-- Key order used by `sort_keys=True`: lexicographic by code point. -/
def keyLe (a b : String) : Bool :=
  charListLe a.toList b.toList

/-- Insert one field into a key-sorted field list, keeping it sorted. -/
def insertField (p : String × Json) : List (String × Json) → List (String × Json)
  | [] => [p]
  | q :: qs => if keyLe p.1 q.1 then p :: q :: qs else q :: insertField p qs

/-- Insertion sort of object fields by key, as `sorted` does for the keys of a
Python dictionary. -/
def sortFields (l : List (String × Json)) : List (String × Json) :=
  l.foldr insertField []

mutual

/-- Recursively sort the keys of every object inside a JSON value. This is the
key-reordering that `json.dumps(x, sort_keys=True)` applies at every level. -/
def Json.sortKeysRec : Json → Json
  | .null => .null
  | .bool b => .bool b
  | .num n => .num n
  | .str s => .str s
  | .arr items => .arr (Json.sortKeysRecList items)
  | .obj fields => .obj (sortFields (Json.sortKeysRecFields fields))

/-- Pointwise `Json.sortKeysRec` over array elements. -/
def Json.sortKeysRecList : List Json → List Json
  | [] => []
  | x :: xs => Json.sortKeysRec x :: Json.sortKeysRecList xs

/-- Pointwise `Json.sortKeysRec` over object field values. -/
def Json.sortKeysRecFields : List (String × Json) → List (String × Json)
  | [] => []
  | (k, v) :: xs => (k, Json.sortKeysRec v) :: Json.sortKeysRecFields xs

end

/-- Escape a character for a JSON string literal, as `json.dumps` does for the
characters appearing in the embedded code paths. -/
def escapeChar (c : Char) : String :=
  if c = '"' then "\\\""
  else if c = '\\' then "\\\\"
  else if c = '\n' then "\\n"
  else if c = '\t' then "\\t"
  else if c = '\r' then "\\r"
  else String.singleton c

/-- Escape a string for inclusion in a JSON serialization. -/
def escapeString (s : String) : String :=
  String.join (s.toList.map escapeChar)

mutual

/-- Embedding of `json.dumps` with its default settings: object fields are
serialized in their given order, items are separated by a comma and a space,
and keys are separated from values by a colon and a space. -/
def Json.dumps : Json → String
  | .null => "null"
  | .bool b => if b then "true" else "false"
  | .num n => toString n
  | .str s => "\"" ++ escapeString s ++ "\""
  | .arr items => "[" ++ Json.dumpsItems items ++ "]"
  | .obj fields => "\x7b" ++ Json.dumpsFields fields ++ "\x7d"

/-- Comma-separated serialization of array items. -/
def Json.dumpsItems : List Json → String
  | [] => ""
  | [x] => Json.dumps x
  | x :: y :: xs => Json.dumps x ++ ", " ++ Json.dumpsItems (y :: xs)

/-- Comma-separated serialization of object fields. -/
def Json.dumpsFields : List (String × Json) → String
  | [] => ""
  | [(k, v)] => "\"" ++ escapeString k ++ "\": " ++ Json.dumps v
  | (k, v) :: q :: xs =>
    "\"" ++ escapeString k ++ "\": " ++ Json.dumps v ++ ", " ++ Json.dumpsFields (q :: xs)

end

/-- Embedding of `json.dumps(x, sort_keys=True)`: serialize after recursively
sorting the keys of every object. -/
def Json.dumpsSortKeys (j : Json) : String :=
  Json.dumps (Json.sortKeysRec j)

/-- Response body of the query analysis endpoint, `query_analysis.py` line 63:
a single field `data` holding a list of structured objects. -/
structure QueryAnalysisResponse where
  data : List Json

/-- Body of the inner loop of `_deduplicate` (`query_analysis.py` lines 80-85):
serialize the item with sorted keys, skip it when the serialization was seen,
otherwise record the serialization and append the item. The `seen` set is the
first component (a list with membership semantics) and `unique` the second. -/
def dedupStep (st : List String × List Json) (data_item : Json) :
    List String × List Json :=
  let serialized := Json.dumpsSortKeys data_item
  if serialized ∈ st.1 then st
  else (serialized :: st.1, st.2 ++ [data_item])

/-- Embedding of `_deduplicate` (`query_analysis.py` lines 69-89): iterate the
responses in order and the items of each response in order, keeping the first
occurrence of each distinct sorted-key serialization. -/
def _deduplicate (responses : List QueryAnalysisResponse) : QueryAnalysisResponse :=
  let st : List String × List Json :=
    responses.foldl (fun st response => response.data.foldl dedupStep st) ([], [])
  ⟨st.2⟩

/-- Specification-level deduplication: keep each item and drop every later item
whose sorted-key serialization agrees with it. -/
def dedupSpec : List Json → List Json
  | [] => []
  | x :: xs =>
    x :: dedupSpec (xs.filter fun y => Json.dumpsSortKeys y ≠ Json.dumpsSortKeys x)
termination_by l => l.length
decreasing_by
  simp only [List.length_cons]
  exact Nat.lt_succ_of_le (List.length_filter_le _ _)

/-- Deduplication relative to a set of already-seen serializations. -/
def dedupFrom (seen : List String) : List Json → List Json
  | [] => []
  | x :: xs =>
    if Json.dumpsSortKeys x ∈ seen then dedupFrom seen xs
    else x :: dedupFrom (Json.dumpsSortKeys x :: seen) xs

theorem dedupFrom_congr (l : List Json) (s1 s2 : List String)
    (h : ∀ t, t ∈ s1 ↔ t ∈ s2) : dedupFrom s1 l = dedupFrom s2 l := by
  induction l generalizing s1 s2 with
  | nil => rfl
  | cons x xs ih =>
    simp only [dedupFrom]
    by_cases hx : Json.dumpsSortKeys x ∈ s1
    · rw [if_pos hx, if_pos ((h _).mp hx)]
      exact ih s1 s2 h
    · rw [if_neg hx, if_neg (fun hc => hx ((h _).mpr hc))]
      have : dedupFrom (Json.dumpsSortKeys x :: s1) xs
          = dedupFrom (Json.dumpsSortKeys x :: s2) xs := by
        apply ih
        intro t
        simp only [List.mem_cons, h t]
      rw [this]

theorem dedupFrom_cons (l : List Json) (s : String) (seen : List String) :
    dedupFrom (s :: seen) l
      = dedupFrom seen (l.filter fun y => Json.dumpsSortKeys y ≠ s) := by
  induction l generalizing seen s with
  | nil => rfl
  | cons x xs ih =>
    by_cases hxs : Json.dumpsSortKeys x = s
    · have hmem : Json.dumpsSortKeys x ∈ s :: seen := by simp [hxs]
      rw [dedupFrom, if_pos hmem]
      have hfilter :
          (x :: xs).filter (fun y => Json.dumpsSortKeys y ≠ s)
            = xs.filter fun y => Json.dumpsSortKeys y ≠ s := by
        simp [List.filter_cons, hxs]
      rw [hfilter, ih]
    · have hfilter :
          (x :: xs).filter (fun y => Json.dumpsSortKeys y ≠ s)
            = x :: xs.filter fun y => Json.dumpsSortKeys y ≠ s := by
        simp [List.filter_cons, hxs]
      rw [hfilter]
      by_cases hx : Json.dumpsSortKeys x ∈ seen
      · have hmem : Json.dumpsSortKeys x ∈ s :: seen := by simp [hx]
        rw [dedupFrom, if_pos hmem, dedupFrom, if_pos hx, ih]
      · have hmem : Json.dumpsSortKeys x ∉ s :: seen := by
          simp [List.mem_cons, hxs, hx]
        rw [dedupFrom, if_neg hmem, dedupFrom, if_neg hx]
        have hswap : dedupFrom (Json.dumpsSortKeys x :: s :: seen) xs
            = dedupFrom (s :: Json.dumpsSortKeys x :: seen) xs := by
          apply dedupFrom_congr
          intro t
          simp only [List.mem_cons]
          tauto
        rw [hswap, ih]

theorem dedupFrom_nil_eq : ∀ l : List Json, dedupFrom [] l = dedupSpec l
  | [] => by rw [dedupSpec]; rfl
  | x :: xs => by
    have hnotmem : Json.dumpsSortKeys x ∉ ([] : List String) := List.not_mem_nil _
    rw [dedupFrom, if_neg hnotmem, dedupFrom_cons,
      dedupFrom_nil_eq (xs.filter fun y => Json.dumpsSortKeys y ≠ Json.dumpsSortKeys x)]
    rw [dedupSpec]
termination_by l => l.length
decreasing_by
  simp only [List.length_cons]
  exact Nat.lt_succ_of_le (List.length_filter_le _ _)

theorem foldl_dedupStep (l : List Json) (seen : List String) (acc : List Json) :
    (l.foldl dedupStep (seen, acc)).2 = acc ++ dedupFrom seen l := by
  induction l generalizing seen acc with
  | nil => simp [dedupFrom]
  | cons x xs ih =>
    rw [List.foldl_cons]
    by_cases hx : Json.dumpsSortKeys x ∈ seen
    · have hstep : dedupStep (seen, acc) x = (seen, acc) := by
        simp [dedupStep, hx]
      rw [hstep, ih, dedupFrom, if_pos hx]
    · have hstep : dedupStep (seen, acc) x
          = (Json.dumpsSortKeys x :: seen, acc ++ [x]) := by
        simp [dedupStep, hx]
      rw [hstep, ih, dedupFrom, if_neg hx]
      simp

theorem foldl_responses (rs : List QueryAnalysisResponse)
    (st : List String × List Json) :
    rs.foldl (fun st response => response.data.foldl dedupStep st) st
      = ((rs.map QueryAnalysisResponse.data).flatten).foldl dedupStep st := by
  induction rs generalizing st with
  | nil => rfl
  | cons r rs ih =>
    rw [List.foldl_cons, List.map_cons, List.flatten_cons, List.foldl_append, ih]

/-- C1: `_deduplicate` iterates the responses in the given order and the items
within each response in the given order, treats two items as the same exactly
when their JSON serializations with recursively sorted keys are identical,
keeps only the first occurrence of each distinct canonical form, and returns
the kept items in first-seen order; in particular the worked example of the
specification evaluates as stated. -/
theorem deduplicate_first_seen_order :
    (∀ rs : List QueryAnalysisResponse,
      _deduplicate rs = ⟨dedupSpec ((rs.map QueryAnalysisResponse.data).flatten)⟩)
    ∧ _deduplicate
        [⟨[Json.obj [("a", Json.num 1)], Json.obj [("a", Json.num 2)]]⟩,
         ⟨[Json.obj [("a", Json.num 1)], Json.obj [("a", Json.num 3)]]⟩]
      = ⟨[Json.obj [("a", Json.num 1)], Json.obj [("a", Json.num 2)],
          Json.obj [("a", Json.num 3)]]⟩ := by
  constructor
  · intro rs
    have h1 := foldl_responses rs ([], [])
    have h2 := foldl_dedupStep ((rs.map QueryAnalysisResponse.data).flatten) [] []
    show QueryAnalysisResponse.mk
        (rs.foldl (fun st response => response.data.foldl dedupStep st) ([], [])).2
      = _
    rw [h1, h2, List.nil_append, dedupFrom_nil_eq]
  · rfl

universe u

/-- Record of one worked example, `query_analysis.py` lines 26-35: a list of
input messages and the expected output, a list of structured objects. The type
of the messages is a parameter; the code never inspects them. -/
structure QueryAnalysisExample (α : Type u) where
  messages : List α
  output : List Json

/-- The message-like values appearing in the assembled prompt: a role-tagged
string tuple, a verbatim input message, an `AIMessage` with text content and an
attached function-call payload of arguments and name, or a
`MessagesPlaceholder` slot to be filled at invocation time. -/
inductive MessageLikeRepresentation (α : Type u) where
  | roleTuple (role : String) (content : String)
  | anyMessage (message : α)
  | aiMessage (content : String) (functionCallArguments : String)
      (functionCallName : String)
  | messagesPlaceholder (variableName : String)

/-- The fixed system preamble of `_make_prompt_template`
(`query_analysis.py` lines 106-110). -/
def prefixText : String :=
  "You are a world class expert at converting user questions into database queries. Given a question, return a list of database queries optimized to retrieve the most relevant results."

/-- Python truthiness of an optional string: `None` and the empty string are
falsy, every other string is truthy. -/
def optStrTruthy : Option String → Bool
  | none => false
  | some s => !(s == "")

/-- Embedding of `_make_prompt_template` (`query_analysis.py` lines 100-139):
the system message, built from the preamble and, when truthy, the
instructions; then, when the example list is not `None`, for each example its
messages followed by a synthesized assistant message whose function call
carries `json.dumps` of the object with single key `data` holding the
expected output; finally the `input` placeholder. -/
def make_prompt_template {α : Type u} (instructions : Option String)
    (examples : Option (List (QueryAnalysisExample α))) (function_name : String) :
    List (MessageLikeRepresentation α) :=
  let system_message : MessageLikeRepresentation α :=
    if optStrTruthy instructions then
      .roleTuple "system" (prefixText ++ "\n\n" ++ instructions.getD "")
    else
      .roleTuple "system" prefixText
  let prompt_components : List (MessageLikeRepresentation α) := [system_message]
  let prompt_components :=
    match examples with
    | none => prompt_components
    | some exs =>
      exs.foldl
        (fun acc ex =>
          acc ++ ex.messages.map MessageLikeRepresentation.anyMessage
            ++ [MessageLikeRepresentation.aiMessage ""
                  (Json.dumps (Json.obj [("data", Json.arr ex.output)]))
                  function_name])
        prompt_components
  prompt_components ++ [MessageLikeRepresentation.messagesPlaceholder "input"]

/-- The system message that `_make_prompt_template` assembles, written as a
case split on the optional instructions. -/
def systemMessageOf {α : Type u} (instructions : Option String) :
    MessageLikeRepresentation α :=
  match instructions with
  | some s =>
    if s = "" then .roleTuple "system" prefixText
    else .roleTuple "system" (prefixText ++ "\n\n" ++ s)
  | none => .roleTuple "system" prefixText

/-- The block of prompt components contributed by one example: its messages
verbatim followed by the synthesized assistant function-call message. -/
def exampleBlock {α : Type u} (function_name : String)
    (ex : QueryAnalysisExample α) : List (MessageLikeRepresentation α) :=
  ex.messages.map MessageLikeRepresentation.anyMessage
    ++ [MessageLikeRepresentation.aiMessage ""
          (Json.dumps (Json.obj [("data", Json.arr ex.output)]))
          function_name]

theorem foldl_exampleBlock {α : Type u} (f : String)
    (exs : List (QueryAnalysisExample α)) (acc : List (MessageLikeRepresentation α)) :
    exs.foldl
      (fun acc ex =>
        acc ++ ex.messages.map MessageLikeRepresentation.anyMessage
          ++ [MessageLikeRepresentation.aiMessage ""
                (Json.dumps (Json.obj [("data", Json.arr ex.output)]))
                f])
      acc
    = acc ++ exs.flatMap (exampleBlock f) := by
  induction exs generalizing acc with
  | nil => simp
  | cons e es ih =>
    rw [List.foldl_cons, ih]
    simp [exampleBlock, List.append_assoc]

theorem make_prompt_template_eq {α : Type u} (instructions : Option String)
    (examples : Option (List (QueryAnalysisExample α))) (f : String) :
    make_prompt_template instructions examples f =
      systemMessageOf instructions ::
        ((match examples with
          | none => []
          | some exs => exs.flatMap (exampleBlock f))
          ++ [MessageLikeRepresentation.messagesPlaceholder "input"]) := by
  have hsys : (if optStrTruthy instructions then
        MessageLikeRepresentation.roleTuple (α := α) "system"
          (prefixText ++ "\n\n" ++ instructions.getD "")
      else .roleTuple "system" prefixText) = systemMessageOf instructions := by
    match instructions with
    | none => rfl
    | some s =>
      by_cases hs : s = ""
      · simp [optStrTruthy, hs, systemMessageOf]
      · simp [optStrTruthy, hs, systemMessageOf]
  match examples with
  | none =>
    show ((if optStrTruthy instructions then
          MessageLikeRepresentation.roleTuple (α := α) "system"
            (prefixText ++ "\n\n" ++ instructions.getD "")
        else .roleTuple "system" prefixText) :: [])
        ++ [MessageLikeRepresentation.messagesPlaceholder "input"] = _
    rw [hsys]
    rfl
  | some exs =>
    show (exs.foldl
        (fun acc ex =>
          acc ++ ex.messages.map MessageLikeRepresentation.anyMessage
            ++ [MessageLikeRepresentation.aiMessage ""
                  (Json.dumps (Json.obj [("data", Json.arr ex.output)])) f])
        [if optStrTruthy instructions then
            MessageLikeRepresentation.roleTuple "system"
              (prefixText ++ "\n\n" ++ instructions.getD "")
          else .roleTuple "system" prefixText])
        ++ [MessageLikeRepresentation.messagesPlaceholder "input"] = _
    rw [hsys, foldl_exampleBlock]
    simp

/-- C2: for every optional instructions string, every ordered list of example
records, and every function name, the assembled prompt is exactly the system
message first, then for each example in input order its messages verbatim and
in order followed by one synthesized assistant function-call message, then the
live-input placeholder last, with no other messages. -/
theorem prompt_message_order {α : Type u} (instructions : Option String)
    (exs : List (QueryAnalysisExample α)) (f : String) :
    make_prompt_template instructions (some exs) f =
      systemMessageOf instructions ::
        (exs.flatMap (exampleBlock f)
          ++ [MessageLikeRepresentation.messagesPlaceholder "input"]) := by
  rw [make_prompt_template_eq]

/-- C4 counterexample: for the example with output `[ \x7b "b": 1, "a": 2 \x7d ]`
the synthesized assistant message carries the plain `json.dumps` serialization,
which differs from the canonical serialization with recursively sorted keys,
so the claim fails as stated. -/
theorem prompt_function_call_not_sorted :
    make_prompt_template (α := Unit) none
        (some [⟨[], [Json.obj [("b", Json.num 1), ("a", Json.num 2)]]⟩]) "f"
      = [MessageLikeRepresentation.roleTuple "system" prefixText,
         MessageLikeRepresentation.aiMessage ""
           "\x7b\"data\": [\x7b\"b\": 1, \"a\": 2\x7d]\x7d" "f",
         MessageLikeRepresentation.messagesPlaceholder "input"]
    ∧ "\x7b\"data\": [\x7b\"b\": 1, \"a\": 2\x7d]\x7d"
        ≠ Json.dumpsSortKeys
            (Json.obj [("data",
              Json.arr [Json.obj [("b", Json.num 1), ("a", Json.num 2)]])]) :=
  ⟨rfl, by decide⟩

/-- C4 amended: the synthesized assistant message appended after each example
has empty text content and a function-call payload whose name is the supplied
function name and whose arguments field is the plain JSON serialization of the
object with key `data` and the example output as value, with object keys in
their given order (not recursively sorted). -/
theorem prompt_function_call_payload {α : Type u} (instructions : Option String)
    (pre post : List (QueryAnalysisExample α)) (ex : QueryAnalysisExample α)
    (f : String) :
    make_prompt_template instructions (some (pre ++ ex :: post)) f =
      systemMessageOf instructions ::
        (pre.flatMap (exampleBlock f)
          ++ ex.messages.map MessageLikeRepresentation.anyMessage
          ++ [MessageLikeRepresentation.aiMessage ""
                (Json.dumps (Json.obj [("data", Json.arr ex.output)])) f]
          ++ post.flatMap (exampleBlock f)
          ++ [MessageLikeRepresentation.messagesPlaceholder "input"]) := by
  rw [make_prompt_template_eq]
  simp [exampleBlock, List.append_assoc]

/-- C5 counterexample: with the provided instructions string `""` the
assembled system message is the bare preamble, not the preamble followed by a
blank line and the (empty) instructions, so the claim fails for the empty
provided string. -/
theorem system_message_empty_instructions :
    make_prompt_template (α := Unit) (some "") none "f"
      = [MessageLikeRepresentation.roleTuple "system" prefixText,
         MessageLikeRepresentation.messagesPlaceholder "input"]
    ∧ prefixText ≠ prefixText ++ "\n\n" ++ "" := by
  refine ⟨rfl, ?_⟩
  intro h
  have hlen := congrArg String.length h
  rw [String.length_append, String.length_append] at hlen
  have h2 : ("\n\n" : String).length = 2 := rfl
  have h0 : ("" : String).length = 0 := rfl
  omega

/-- C5 amended: for every provided non-empty instructions string the system
message is the preamble, a blank line, and the instructions; when the
instructions are absent or the empty string, the system message is the
preamble alone. -/
theorem system_message_content {α : Type u}
    (examples : Option (List (QueryAnalysisExample α))) (f s : String) :
    (make_prompt_template (some s) examples f).head?
        = some (MessageLikeRepresentation.roleTuple "system"
            (if s = "" then prefixText else prefixText ++ "\n\n" ++ s))
    ∧ (make_prompt_template (α := α) none examples f).head?
        = some (MessageLikeRepresentation.roleTuple "system" prefixText) := by
  constructor
  · rw [make_prompt_template_eq]
    by_cases hs : s = "" <;> simp [systemMessageOf, hs]
  · rw [make_prompt_template_eq]
    simp [systemMessageOf]

/-- C6: with no instructions and no examples the assembled prompt is exactly
the bare-preamble system message followed only by the live-input placeholder. -/
theorem prompt_bare {α : Type u} (f : String) :
    make_prompt_template (α := α) none none f
      = [MessageLikeRepresentation.roleTuple "system" prefixText,
         MessageLikeRepresentation.messagesPlaceholder "input"] := rfl

/-- C10: building the prompt with an empty example list yields exactly the
same message sequence as building it with the examples absent, for every
optional instructions string and function name. -/
theorem empty_examples_eq_none {α : Type u} (instructions : Option String)
    (f : String) :
    make_prompt_template (α := α) instructions (some []) f
      = make_prompt_template instructions none f := rfl

/-- Descriptor of an LLM-callable function: name, description, and parameter
schema. -/
structure FunctionDescriptor where
  name : String
  description : String
  parameters : Json

/-- Look up a top-level key of a JSON object. -/
def Json.lookupKey (j : Json) (key : String) : Option Json :=
  match j with
  | .obj fields => fields.lookup key
  | _ => none

/-- Replace every character that is not alphanumeric and not an underscore by
an underscore. -/
def sanitizeChar (c : Char) : Char :=
  if c.isAlphanum || (c == '_') then c else '_'

/-- Deterministic sanitization of a schema title into a function-name token. -/
def sanitizeName (s : String) : String :=
  (s.toList.map sanitizeChar).asString

/-- Validity of a function-name token: non-empty and made of alphanumeric
characters and underscores only. -/
def isValidFunctionToken (s : String) : Bool :=
  !(s == "") && s.toList.all (fun c => c.isAlphanum || (c == '_'))

/-- Modelled from the spec: `convert_json_schema_to_openai_schema` is defined
in `extraction/utils.py`, which is not among the provided source files, so it
is modelled from spec sections 3 and 4.1. The name is the declared title of
the schema when present and non-empty, sanitized deterministically to an
alphanumeric-plus-underscore token, and the fixed default `"extractor"`
otherwise; the description is the declared description when present and the
empty string otherwise; the parameters expose the single argument named
`data` whose value is the full target schema. -/
def convert_json_schema_to_openai_schema (schema : Json) : FunctionDescriptor :=
  let name :=
    match schema.lookupKey "title" with
    | some (.str t) => if t = "" then "extractor" else sanitizeName t
    | _ => "extractor"
  let description :=
    match schema.lookupKey "description" with
    | some (.str d) => d
    | _ => ""
  ⟨name, description,
    Json.obj
      [("type", Json.str "object"),
       ("properties", Json.obj [("data", schema)]),
       ("required", Json.arr [Json.str "data"])]⟩

theorem sanitizeChar_valid (c : Char) :
    ((sanitizeChar c).isAlphanum || (sanitizeChar c == '_')) = true := by
  unfold sanitizeChar
  by_cases h : (c.isAlphanum || (c == '_')) = true
  · rw [if_pos h]
    exact h
  · rw [if_neg h]
    decide

theorem toList_sanitizeName (s : String) :
    (sanitizeName s).toList = s.toList.map sanitizeChar := rfl

theorem sanitizeName_valid (s : String) (hs : s ≠ "") :
    isValidFunctionToken (sanitizeName s) = true := by
  have hnil : s.toList ≠ [] := by
    intro hl
    apply hs
    cases s with
    | mk data =>
      simp only [String.toList] at hl
      simp [hl]
  have hne : (sanitizeName s == "") = false := by
    apply beq_eq_false_iff_ne.mpr
    intro h
    apply hnil
    have hcl := congrArg String.toList h
    rw [toList_sanitizeName] at hcl
    simpa using hcl
  have hall : (sanitizeName s).toList.all
      (fun c => c.isAlphanum || (c == '_')) = true := by
    rw [toList_sanitizeName]
    rw [List.all_eq_true]
    intro c hc
    rcases List.mem_map.mp hc with ⟨d, _, hd⟩
    rw [← hd]
    exact sanitizeChar_valid d
  unfold isValidFunctionToken
  rw [hne, hall]
  rfl

theorem convert_name_eq (S : Json) :
    (convert_json_schema_to_openai_schema S).name
      = (match S.lookupKey "title" with
        | some (.str t) => if t = "" then "extractor" else sanitizeName t
        | _ => "extractor") := rfl

/-- C8: for every schema the translated descriptor name is a valid
function-name token and identical across repeated translations of the same
schema; when the schema declares a non-empty string title the name is the
deterministic sanitization of that title, and when the schema has no title the
name is the fixed default `extractor`. -/
theorem schema_translation_name (S : Json) :
    isValidFunctionToken (convert_json_schema_to_openai_schema S).name = true
    ∧ convert_json_schema_to_openai_schema S
        = convert_json_schema_to_openai_schema S
    ∧ (∀ t, S.lookupKey "title" = some (Json.str t) → t ≠ "" →
        (convert_json_schema_to_openai_schema S).name = sanitizeName t)
    ∧ (S.lookupKey "title" = none →
        (convert_json_schema_to_openai_schema S).name = "extractor") := by
  refine ⟨?_, rfl, ?_, ?_⟩
  · rw [convert_name_eq]
    cases hT : S.lookupKey "title" with
    | none => decide
    | some j =>
      cases j with
      | null => decide
      | bool b =>
        show isValidFunctionToken "extractor" = true
        decide
      | num n =>
        show isValidFunctionToken "extractor" = true
        decide
      | str t =>
        show isValidFunctionToken
          (if t = "" then "extractor" else sanitizeName t) = true
        by_cases ht : t = ""
        · rw [if_pos ht]
          decide
        · rw [if_neg ht]
          exact sanitizeName_valid t ht
      | arr items =>
        show isValidFunctionToken "extractor" = true
        decide
      | obj fields =>
        show isValidFunctionToken "extractor" = true
        decide
  · intro t ht hne
    rw [convert_name_eq, ht]
    show (if t = "" then "extractor" else sanitizeName t) = sanitizeName t
    rw [if_neg hne]
  · intro h
    rw [convert_name_eq, h]

/-- C8 witness: translating the concrete schema whose title is `My schema!`
yields the valid sanitized token `My_schema_`. -/
theorem schema_translation_name_witness :
    isValidFunctionToken
        (convert_json_schema_to_openai_schema
          (Json.obj [("title", Json.str "My schema!")])).name = true
    ∧ (convert_json_schema_to_openai_schema
          (Json.obj [("title", Json.str "My schema!")])).name = "My_schema_" := by
  have h := schema_translation_name (Json.obj [("title", Json.str "My schema!")])
  refine ⟨h.1, ?_⟩
  rw [h.2.2.1 "My schema!" rfl (by decide)]
  decide

/-- Request body of `/extract_from_text`, `main.py` lines 26-34. -/
structure ExtractRequest where
  text : String
  schema : Json

/-- Response body of `/extract_from_text`, `main.py` lines 37-40. -/
structure ExtractResponse where
  extracted : Json

/-- Error raised through `HTTPException`: a status code and a detail string. -/
structure HTTPError where
  status : Nat
  detail : String

/-- The side effects a handler can perform after schema validation. -/
inductive ExtractEvent where
  | translateSchema
  | invokeModel
  deriving DecidableEq

/-- Embedding of the `/extract_from_text` handler (`main.py` lines 53-86),
parameterized by the external collaborators: `check_schema` is the structural
Draft 2020-12 validator, returning `none` when the schema is valid and the
validator error message otherwise, and `llm` is the model invocation with the
bound functions and the text. Alongside the handler result it returns the
ordered list of side effects performed. -/
def extract (check_schema : Json → Option String)
    (llm : List FunctionDescriptor → String → Json)
    (extract_request : ExtractRequest) :
    Except HTTPError ExtractResponse × List ExtractEvent :=
  match check_schema extract_request.schema with
  | some m => (.error ⟨422, "Invalid schema: " ++ m⟩, [])
  | none =>
    let openai_function := convert_json_schema_to_openai_schema
      extract_request.schema
    let extracted_content := llm [openai_function] extract_request.text
    (.ok ⟨extracted_content⟩, [.translateSchema, .invokeModel])

/-- Request body of the query analyzer endpoint, `query_analysis.py` lines
38-54. -/
structure QueryAnalysisRequest (α : Type u) where
  messages : List α
  json_schema : Json
  instructions : Option String
  examples : Option (List (QueryAnalysisExample α))

/-- Embedding of the `query_analyzer` chain (`query_analysis.py` lines
152-171), parameterized by the validator and by the structured-output model
invocation, which receives the assembled prompt and the live messages and
returns the structured response. The handler returns the model response
unchanged, together with the ordered list of side effects performed. -/
def query_analyzer {α : Type u} (check_schema : Json → Option String)
    (llm : List (MessageLikeRepresentation α) → List α → QueryAnalysisResponse)
    (request : QueryAnalysisRequest α) :
    Except HTTPError QueryAnalysisResponse × List ExtractEvent :=
  match check_schema request.json_schema with
  | some m => (.error ⟨422, "Invalid schema: " ++ m⟩, [])
  | none =>
    let openai_function := convert_json_schema_to_openai_schema
      request.json_schema
    let prompt := make_prompt_template request.instructions request.examples
      openai_function.name
    (.ok (llm prompt request.messages), [.translateSchema, .invokeModel])

/-- C3: whenever the structural schema validation fails with some message,
both the extraction handler and the query analysis handler fail with HTTP
status 422 and a detail equal to `Invalid schema: ` followed by the validator
message, a string that has `Invalid schema` as a prefix and hence contains
that substring. -/
theorem invalid_schema_422 {α : Type u} (check_schema : Json → Option String)
    (llmE : List FunctionDescriptor → String → Json)
    (llmQ : List (MessageLikeRepresentation α) → List α → QueryAnalysisResponse)
    (reqE : ExtractRequest) (reqQ : QueryAnalysisRequest α) (mE mQ : String)
    (hE : check_schema reqE.schema = some mE)
    (hQ : check_schema reqQ.json_schema = some mQ) :
    (extract check_schema llmE reqE).1
        = Except.error ⟨422, "Invalid schema: " ++ mE⟩
    ∧ (query_analyzer check_schema llmQ reqQ).1
        = Except.error ⟨422, "Invalid schema: " ++ mQ⟩
    ∧ (∃ rest, "Invalid schema: " ++ mE = "Invalid schema" ++ rest)
    ∧ (∃ rest, "Invalid schema: " ++ mQ = "Invalid schema" ++ rest) := by
  refine ⟨?_, ?_, ⟨": " ++ mE, ?_⟩, ⟨": " ++ mQ, ?_⟩⟩
  · unfold extract
    rw [hE]
  · unfold query_analyzer
    rw [hQ]
  · rw [← String.append_assoc]
    congr 1
  · rw [← String.append_assoc]
    congr 1

/-- C3 witness: a validator failing with message `boom` makes both handlers
return the 422 error with detail `Invalid schema: boom`. -/
theorem invalid_schema_422_witness :
    (extract (fun _ => some "boom") (fun _ _ => Json.null) ⟨"x", Json.null⟩).1
        = Except.error ⟨422, "Invalid schema: " ++ "boom"⟩
    ∧ (query_analyzer (α := Unit) (fun _ => some "boom")
          (fun _ _ => ⟨[]⟩) ⟨[], Json.null, none, none⟩).1
        = Except.error ⟨422, "Invalid schema: " ++ "boom"⟩ := by
  have h := invalid_schema_422 (α := Unit) (fun _ => some "boom")
    (fun _ _ => Json.null) (fun _ _ => ⟨[]⟩) ⟨"x", Json.null⟩
    ⟨[], Json.null, none, none⟩ "boom" "boom" rfl rfl
  exact ⟨h.1, h.2.1⟩

/-- C7: when the schema fails validation the `/extract_from_text` handler
raises the 422 error with an empty effect trace: the schema is not translated,
the model is not invoked, and no extraction result is produced. -/
theorem validation_before_invocation (check_schema : Json → Option String)
    (llm : List FunctionDescriptor → String → Json) (req : ExtractRequest)
    (m : String) (h : check_schema req.schema = some m) :
    extract check_schema llm req
        = (Except.error ⟨422, "Invalid schema: " ++ m⟩, [])
    ∧ ExtractEvent.invokeModel ∉ (extract check_schema llm req).2
    ∧ ExtractEvent.translateSchema ∉ (extract check_schema llm req).2
    ∧ ∀ r, (extract check_schema llm req).1 ≠ Except.ok r := by
  have hmain : extract check_schema llm req
      = (Except.error ⟨422, "Invalid schema: " ++ m⟩, []) := by
    unfold extract
    rw [h]
  refine ⟨hmain, ?_, ?_, ?_⟩
  · rw [hmain]
    simp
  · rw [hmain]
    simp
  · intro r
    rw [hmain]
    simp

/-- C7 witness: at a concrete invalid schema the handler raises the 422 error
and the effect trace is empty. -/
theorem validation_before_invocation_witness :
    extract (fun _ => some "boom") (fun _ _ => Json.null) ⟨"x", Json.null⟩
      = (Except.error ⟨422, "Invalid schema: " ++ "boom"⟩, []) :=
  (validation_before_invocation (fun _ => some "boom")
    (fun _ _ => Json.null) ⟨"x", Json.null⟩ "boom" rfl).1

/-- C9: on every request that passes schema validation, both handlers return
the single model response as-is: `extract` wraps the model output unchanged
and `query_analyzer` returns the structured response verbatim, so no
`_deduplicate` pass is applied to its data list; in particular whenever
deduplicating the response would change it, the returned value is not the
deduplicated one. -/
theorem no_deduplication_pass {α : Type u} (check_schema : Json → Option String)
    (llmE : List FunctionDescriptor → String → Json)
    (llmQ : List (MessageLikeRepresentation α) → List α → QueryAnalysisResponse)
    (reqE : ExtractRequest) (reqQ : QueryAnalysisRequest α)
    (hE : check_schema reqE.schema = none)
    (hQ : check_schema reqQ.json_schema = none) :
    (extract check_schema llmE reqE).1
        = Except.ok ⟨llmE [convert_json_schema_to_openai_schema reqE.schema]
            reqE.text⟩
    ∧ (query_analyzer check_schema llmQ reqQ).1
        = Except.ok (llmQ
            (make_prompt_template reqQ.instructions reqQ.examples
              (convert_json_schema_to_openai_schema reqQ.json_schema).name)
            reqQ.messages)
    ∧ ∀ raw, (query_analyzer check_schema llmQ reqQ).1 = Except.ok raw →
        _deduplicate [raw] ≠ raw →
        (query_analyzer check_schema llmQ reqQ).1
          ≠ Except.ok (_deduplicate [raw]) := by
  have hEmain : (extract check_schema llmE reqE).1
      = Except.ok ⟨llmE [convert_json_schema_to_openai_schema reqE.schema]
          reqE.text⟩ := by
    unfold extract
    rw [hE]
  have hQmain : (query_analyzer check_schema llmQ reqQ).1
      = Except.ok (llmQ
          (make_prompt_template reqQ.instructions reqQ.examples
            (convert_json_schema_to_openai_schema reqQ.json_schema).name)
          reqQ.messages) := by
    unfold query_analyzer
    rw [hQ]
  refine ⟨hEmain, hQmain, ?_⟩
  intro raw hok hne hcontra
  rw [hok] at hcontra
  exact hne (Except.ok.inj hcontra).symm

/-- C9 witness: with a model stub returning a duplicated data list the query
analyzer returns the duplicated list as-is, which is not the deduplicated
response. -/
theorem no_deduplication_pass_witness :
    (query_analyzer (α := Unit) (fun _ => none)
        (fun _ _ => ⟨[Json.num 1, Json.num 1]⟩) ⟨[], Json.null, none, none⟩).1
      = Except.ok ⟨[Json.num 1, Json.num 1]⟩
    ∧ (query_analyzer (α := Unit) (fun _ => none)
        (fun _ _ => ⟨[Json.num 1, Json.num 1]⟩) ⟨[], Json.null, none, none⟩).1
      ≠ Except.ok (_deduplicate [⟨[Json.num 1, Json.num 1]⟩]) := by
  have h := no_deduplication_pass (α := Unit) (fun _ => none)
    (fun _ _ => Json.null) (fun _ _ => ⟨[Json.num 1, Json.num 1]⟩)
    ⟨"x", Json.null⟩ ⟨[], Json.null, none, none⟩ rfl rfl
  have hok : (query_analyzer (α := Unit) (fun _ => none)
      (fun _ _ => ⟨[Json.num 1, Json.num 1]⟩) ⟨[], Json.null, none, none⟩).1
      = Except.ok ⟨[Json.num 1, Json.num 1]⟩ := h.2.1
  have hne : _deduplicate [(⟨[Json.num 1, Json.num 1]⟩ : QueryAnalysisResponse)]
      ≠ (⟨[Json.num 1, Json.num 1]⟩ : QueryAnalysisResponse) := by
    have hval : _deduplicate [(⟨[Json.num 1, Json.num 1]⟩ : QueryAnalysisResponse)]
        = ⟨[Json.num 1]⟩ := rfl
    rw [hval]
    intro hcon
    have hlen := congrArg (fun r => r.data.length) hcon
    simp at hlen
  exact ⟨hok, h.2.2 ⟨[Json.num 1, Json.num 1]⟩ hok hne⟩
